import Mathlib

/-!
# Gold Loan Appraisal — verification of the purity-test core

Shallow embedding of the sensor-fusion core of the gold-purity testing
backend (`src/backend`): the per-frame rubbing-motion analysis, the gold-mask
persistence, the audio sliding-window classifier with its circular sample
buffer, the confirmation/stage logic, and the start control path.

Conventions used throughout:
* Python floats are modelled as rationals (`ℚ`); the numeric literals of
  the source (`2.5`, `0.7`, `1e-6`, ...) are carried over verbatim as
  rationals.
* The trained detection/classification models are opaque collaborators
  (spec §6); they are passed in as function arguments or as lists of
  detections/confidences that a model call returned.
* `numpy` square roots (`np.std`, `np.hypot`) are irrational in general, so
  the standard deviation and the centroid distance are taken as oracle
  inputs where they feed a computation; where a claim needs their value the
  accompanying statement pins it down (e.g. a variance conjunct fixing the
  standard deviation).

The file is organised as definitions first, then the theorems.
-/

namespace GoldLoan

/-! ## Rubbing-motion analysis (`inference_worker.py`, `_compute_rubbing_motion`)

The detector appends one centroid-to-stone-center distance per frame to a
bounded history and declares rubbing from the fluctuations of that history
(lines 343‑352 of `src/backend/inference/inference_worker.py`).
-/

/-- `np.diff`: consecutive differences `l[i+1] - l[i]`. -/
def consecDiffs (l : List ℚ) : List ℚ :=
  (l.zip l.tail).map (fun p => p.2 - p.1)

/-- `THRESHOLD_FLUCTUATION = 2.5` (`inference_worker.py` line 34). -/
def THRESHOLD_FLUCTUATION : ℚ := 5/2

/-- `MIN_FLUCTUATIONS = 2` (`inference_worker.py` line 35). -/
def MIN_FLUCTUATIONS : Nat := 2

/-- `np.sign` on a rational. -/
def qsign (d : ℚ) : Int :=
  if 0 < d then 1 else if d < 0 then -1 else 0

/-- `np.abs` on a rational. -/
def qabs (d : ℚ) : ℚ :=
  if d < 0 then -d else d

/-- `np.sum(np.diff(signs) != 0)`: the number of adjacent sign pairs that
differ. -/
def signChanges : List Int → Nat
  | a :: b :: rest => (if a ≠ b then 1 else 0) + signChanges (b :: rest)
  | _ => 0

/-- The meaningful consecutive differences of the distance history:
`np.abs(diffs) >= THRESHOLD_FLUCTUATION` (line 347). -/
def meaningfulDiffs (distances : List ℚ) : List ℚ :=
  (consecDiffs distances).filter (fun d => THRESHOLD_FLUCTUATION ≤ qabs d)

/-- `InferenceWorker._compute_rubbing_motion`, fluctuation part
(lines 344‑352): rubbing is declared from the distance history alone once
the mask/stone guards have passed and the new distance has been appended. -/
def computeRubbingMotion (distances : List ℚ) : Bool :=
  if 3 ≤ distances.length then
    let meaningful := meaningfulDiffs distances
    if 2 ≤ meaningful.length then
      let signs := meaningful.map qsign
      if 2 ≤ signs.length then
        decide (MIN_FLUCTUATIONS ≤ signChanges signs)
      else false
    else false
  else false

/-- The condition claimed by the spec: at least 2 meaningful consecutive
differences, whose signs change at least `min_flips = 2` times. -/
def rubbingMotionSpec (distances : List ℚ) : Prop :=
  2 ≤ (meaningfulDiffs distances).length ∧
  2 ≤ signChanges ((meaningfulDiffs distances).map qsign)

/-! ## Session state update (`webrtc/video_processor.py`)

`VideoTransformTrack._update_session_state` (lines 220‑297) fuses the
visual detection result with the most recent audio inference and queues
stage transitions in `_pending_task_switch`; `recv` (lines 120‑128) applies
a queued switch at the start of the next frame.
-/

/-- The session task: `"rubbing"`, `"acid"`, `"done"`. -/
inductive Task
  | rubbing
  | acid
  | done
  deriving DecidableEq

/-- Audio classifier label of `audio_service.infer`: `'OK'` or `'NOK'`. -/
inductive AudioPred
  | ok
  | nok
  deriving DecidableEq

/-- The fields of the audio inference result consulted by the video
processor (`prediction`, `confidence`). -/
structure AudioResult where
  prediction : AudioPred
  confidence : ℚ

/-- Purity classes parsed from acid detection class names. -/
inductive GoldPurity
  | k18
  | k22
  | k24
  deriving DecidableEq

/-- The fields of `detection_result` consulted by
`_update_session_state`. -/
structure DetectionResult where
  visualConfirmCount : Nat
  visualOk : Bool
  rubbingMotion : Bool
  acidDetected : Bool
  goldPurity : Option GoldPurity

/-- The session state touched by `VideoTransformTrack`: the session's
`current_task` and `detection_status` flags together with the track's own
`_pending_task_switch`, `audio_confirm_count`, `last_audio_result` and
`last_visual_ok`. -/
structure VideoSession where
  currentTask : Task
  rubbingDetected : Bool
  acidDetected : Bool
  goldPurity : Option GoldPurity
  pendingTaskSwitch : Option Task
  audioConfirmCount : Nat
  lastAudioResult : Option AudioResult
  lastVisualOk : Bool

/-- `self.audio_ok_threshold = 0.7` (`video_processor.py` line 91). -/
def AUDIO_OK_THRESHOLD : ℚ := 7/10

/-- `class_label == "OK" and confidence >= self.audio_ok_threshold`
applied to the stored last audio result (lines 246‑249). -/
def audioRubbingOk : Option AudioResult → Bool
  | some a => decide (a.prediction = AudioPred.ok)
      && decide (AUDIO_OK_THRESHOLD ≤ a.confidence)
  | none => false

/-- `VideoTransformTrack._update_session_state` (lines 220‑293).
`audioNew` is the value `_check_audio_rubbing()` returned on this frame
(an opaque collaborator call, `None` on failure or absence). -/
def updateSessionState (st : VideoSession) (dr : DetectionResult)
    (audioNew : Option AudioResult) : VideoSession :=
  let visualConfirmed :=
    dr.visualOk && decide (3 ≤ dr.visualConfirmCount) && dr.rubbingMotion
  let st1 := { st with lastVisualOk := dr.visualOk }
  let st2 :=
    if st1.currentTask = Task.rubbing then
      match audioNew with
      | some a => { st1 with lastAudioResult := some a }
      | none => st1
    else st1
  let rubbingAudioOk :=
    visualConfirmed && decide (st2.currentTask = Task.rubbing)
      && audioRubbingOk st2.lastAudioResult
  let st3 :=
    if visualConfirmed && decide (st2.currentTask = Task.rubbing) then
      if audioRubbingOk st2.lastAudioResult then
        { st2 with audioConfirmCount := st2.audioConfirmCount + 1 }
      else
        { st2 with audioConfirmCount := st2.audioConfirmCount - 1 }
    else st2
  let st4 :=
    if visualConfirmed && decide (st3.currentTask = Task.rubbing)
        && rubbingAudioOk then
      { st3 with rubbingDetected := true }
    else st3
  let st5 :=
    if dr.acidDetected && decide (st4.currentTask = Task.acid) then
      { st4 with acidDetected := true }
    else st4
  let st6 :=
    match dr.goldPurity with
    | some p => { st5 with goldPurity := some p }
    | none => st5
  let st7 :=
    if decide (st6.currentTask = Task.rubbing) && st6.rubbingDetected then
      if st6.pendingTaskSwitch.isNone then
        { st6 with pendingTaskSwitch := some Task.acid }
      else st6
    else st6
  if decide (st7.currentTask = Task.acid) && st7.acidDetected then
    if st7.pendingTaskSwitch.isNone then
      { st7 with pendingTaskSwitch := some Task.done }
    else st7
  else st7

/-- The pending-switch application at the start of `recv`
(`video_processor.py` lines 120‑128). -/
def applyPending (st : VideoSession) : VideoSession :=
  match st.pendingTaskSwitch with
  | some t =>
      { st with currentTask := t, acidDetected := false,
                pendingTaskSwitch := none }
  | none => st

/-! ## Fast purity service (`services/fast_purity_service.py`)

`FastPurityService._process_frame` (lines 277‑407) runs the per-frame stage
logic on the backend-camera path; `_compute_rubbing` (lines 409‑445) is its
own rubbing-motion variant; `start` (lines 451‑489) is the control path.
The detector models are opaque collaborators: the stone/gold outcomes are
summarised by `stoneFound`/`maskNonzero`, the centroid distance `dist`
(an `np.hypot`, taken as an oracle input) and the raw acid detection
confidences `acidRaw` that the acid model call would score.
`AWSPurityService._process_frame` / `_compute_rubbing`
(`services/aws_purity_service.py` lines 255‑445) implement the same stage
logic (per-session state instead of service-global, identical thresholds
`conf=0.6`, `conf > 0.4`, `FLUCTUATION_THRESHOLD`/`MIN_FLUCTUATIONS`), so
this embedding also covers the AWS path for the claims that cite it.
-/

/-- `FLUCTUATION_THRESHOLD = 2.0` (`fast_purity_service.py` line 72). -/
def FAST_FLUCTUATION_THRESHOLD : ℚ := 2

/-- `MIN_FLUCTUATIONS = 3` (line 73). -/
def FAST_MIN_FLUCTUATIONS : Nat := 3

/-- `WINDOW_SIZE = 10` (line 74): `deque(maxlen=10)`. -/
def FAST_WINDOW_SIZE : Nat := 10

/-- `deque(maxlen=cap).append`: keep the most recent `cap` entries. -/
def dequeAppend (cap : Nat) (l : List ℚ) (x : ℚ) : List ℚ :=
  let l2 := l ++ [x]
  l2.drop (l2.length - cap)

/-- The sign-change loop of `FastPurityService._compute_rubbing`
(lines 435‑441): walks pairs `(meaningful i, sign i)` for `i ≥ 1`,
carrying `meaningful (i-1)` and the running `prev_sign` (which skips
zero signs). -/
def fastCountFlips (prevMeaningful : Bool) (prevSign : Int) :
    List (Bool × Int) → Nat
  | [] => 0
  | (m, s) :: rest =>
      let inc :=
        if m && prevMeaningful && decide (s ≠ 0) && decide (prevSign ≠ 0)
            && decide (s ≠ prevSign) then 1 else 0
      let newPrev := if s ≠ 0 then s else prevSign
      inc + fastCountFlips m newPrev rest

/-- `FastPurityService._compute_rubbing`, fluctuation part
(lines 430‑445), as a function of the distance history after the append. -/
def fastComputeRubbingFromDistances (distances : List ℚ) : Bool :=
  if 3 ≤ distances.length then
    let diffs := consecDiffs distances
    let meaningful :=
      diffs.map (fun d => decide (FAST_FLUCTUATION_THRESHOLD ≤ qabs d))
    let signs := diffs.map qsign
    match meaningful, signs with
    | m0 :: mrest, s0 :: srest =>
        decide (FAST_MIN_FLUCTUATIONS ≤ fastCountFlips m0 s0 (mrest.zip srest))
    | _, _ => decide (FAST_MIN_FLUCTUATIONS ≤ 0)
  else false

/-- `FastPurityService._compute_rubbing` (lines 409‑445).  The guards
`stone_bbox is None`, `(mask > 0).sum() == 0` and `M['m00'] == 0` are
summarised by `stoneFound`/`maskNonzero` (for a binary mask, the zeroth
moment vanishes exactly when the mask is empty); the appended centroid
distance `dist` is an oracle input. -/
def fastComputeRubbing (stoneFound : Bool) (maskNonzero : Bool) (dist : ℚ)
    (recentDistances : List ℚ) : Bool × List ℚ :=
  if !stoneFound || !maskNonzero then (false, recentDistances)
  else
    let ds := dequeAppend FAST_WINDOW_SIZE recentDistances dist
    (fastComputeRubbingFromDistances ds, ds)

/-- The `FastPurityService` state touched by `_process_frame` and `start`
(thread spawning is recorded by two booleans; the camera handle, queues
and loaded models are outside the per-frame state logic). -/
structure FastService where
  isRunning : Bool
  currentTask : Task
  rubbingConfirmed : Bool
  acidDetected : Bool
  recentDistances : List ℚ
  captureThreadStarted : Bool
  processThreadStarted : Bool

/-- The `status` dict assembled by `_process_frame`
(lines 281‑286 and 403‑405). -/
structure FastStatus where
  task : Task
  rubbingDetected : Bool
  acidDetected : Bool

/-- `FastPurityService._process_frame` (lines 277‑407).  The acid model
call at `conf=0.6` is modelled by filtering the raw confidences at `0.6`
(strict, as in the detector's candidate selection); the code then checks
`conf > 0.4` on each returned box (lines 366‑380). -/
def fastProcessFrame (st : FastService) (stoneFound : Bool)
    (maskNonzero : Bool) (dist : ℚ) (acidRaw : List ℚ) :
    FastService × FastStatus :=
  match st.currentTask with
  | Task.rubbing =>
      let r := fastComputeRubbing stoneFound maskNonzero dist
          st.recentDistances
      let st1 := { st with recentDistances := r.2 }
      let st2 :=
        if r.1 then
          { st1 with rubbingConfirmed := true, currentTask := Task.acid }
        else st1
      (st2, ⟨st2.currentTask, st2.rubbingConfirmed, st2.acidDetected⟩)
  | Task.acid =>
      let boxes := acidRaw.filter (fun c => (6 : ℚ)/10 < c)
      let acidFound := boxes.any (fun c => decide ((4 : ℚ)/10 < c))
      let st1 :=
        if acidFound then
          { st with acidDetected := true, currentTask := Task.done }
        else st
      (st1, ⟨st1.currentTask, st1.rubbingConfirmed, st1.acidDetected⟩)
  | Task.done =>
      (st, ⟨st.currentTask, st.rubbingConfirmed, st.acidDetected⟩)

/-- `FastPurityService.start` (lines 451‑489): `cameraOpens` is the
outcome of `self._open_camera(camera_index)`.  The returned boolean is the
`success` field of the result dict. -/
def fastStart (st : FastService) (cameraOpens : Bool) :
    Bool × FastService :=
  if st.isRunning then (true, st)
  else if !cameraOpens then (false, st)
  else
    (true,
      { st with isRunning := true, currentTask := Task.rubbing,
                rubbingConfirmed := false, acidDetected := false,
                recentDistances := [],
                captureThreadStarted := true, processThreadStarted := true })

/-! ## Inference worker stage handling (`inference/inference_worker.py`)

`process_frame` (lines 76‑142) syncs the worker's internal stage string
from the caller's `current_task` and dispatches to the stage handler;
`_process_acid` (lines 356‑417) performs the ACID-stage detection.  The
worker state below carries the fields those paths touch; the annotation
buffers, the distance deque (modelled by `computeRubbingMotion`), the
stone-bbox smoothing and the frame counter are omitted as no theorem here
mentions them.
-/

/-- The worker's internal `self.stage` string.  `pleted` is the literal
`"PLETED"` assigned when `current_task == "done"` (line 101) — a value
that matches none of the processing branches. -/
inductive InfStage
  | rubbing
  | acid
  | completed
  | pleted
  deriving DecidableEq

/-- The `InferenceWorker` fields touched by the stage sync, the ACID
handler and the gold-mask persistence. -/
structure InfWorker where
  stage : InfStage
  rubbingConfirmed : Bool
  acidDetected : Bool
  visualConfirmCount : Nat
  lastGoldMask : Option (List Bool)
  goldMaskAge : Nat

/-- `model_manager.predict(name, frame, conf=th, ...)`: the detector
returns the candidates scoring above the confidence threshold `th`; the
raw candidate confidences are the oracle input. -/
def predictFilter (th : ℚ) (raw : List ℚ) : List ℚ :=
  raw.filter (fun c => th < c)

/-- `InferenceWorker._process_acid` (lines 356‑406): the acid model is
invoked with `conf=0.8`; any returned box sets `acid_found`, and the first
such frame flips `acid_detected` and the stage to `"COMPLETED"`.  The
purity-string parsing and drawing are omitted (no theorem mentions
them). -/
def infProcessAcid (st : InfWorker) (acidRaw : List ℚ) : InfWorker :=
  let boxes := predictFilter (8/10) acidRaw
  let acidFound := !boxes.isEmpty
  if acidFound && !st.acidDetected then
    { st with acidDetected := true, stage := InfStage.completed }
  else st

/-- The stage sync at the top of `process_frame` (lines 96‑101); note the
`"PLETED"` literal in the `done` branch. -/
def infSyncStage (task : Task) (st : InfWorker) : InfWorker :=
  match task with
  | Task.rubbing => { st with stage := InfStage.rubbing }
  | Task.acid => { st with stage := InfStage.acid }
  | Task.done => { st with stage := InfStage.pleted }

/-- `InferenceWorker._reset_for_new_item` (lines 457‑485), restricted to
the modelled fields. -/
def infResetForNewItem (st : InfWorker) : InfWorker :=
  { st with lastGoldMask := none, goldMaskAge := 0,
            visualConfirmCount := 0, rubbingConfirmed := false,
            acidDetected := false }

/-- `InferenceWorker.process_frame` dispatch (lines 92‑133): stage sync,
auto-reset on a switch back to RUBBING, then the stage branch.  The
RUBBING branch is abstracted by `rubStep` (its gold-mask and motion parts
are modelled separately at the granularity the claims address); the
item-index reset branch never fires because the session dict passed in by
the video processor carries no `current_item_index` key, so
`session_state.get(...)` is the constant 0. -/
def infProcessFrameDispatch (st : InfWorker) (task : Task)
    (acidRaw : List ℚ) (rubStep : InfWorker → InfWorker) : InfWorker :=
  let prev := st.stage
  let st1 := infSyncStage task st
  let st2 :=
    if decide (st1.stage = InfStage.rubbing)
        && !decide (prev = InfStage.rubbing) then
      infResetForNewItem st1
    else st1
  match st2.stage with
  | InfStage.rubbing => rubStep st2
  | InfStage.acid => infProcessAcid st2 acidRaw
  | InfStage.completed => st2
  | InfStage.pleted => st2

/-! ## Gold-mask persistence (`inference_worker.py`, `_process_rubbing`)

Steps 2‑3 of `_process_rubbing` (lines 195‑251): fetch the persisted mask
(or zeros), age it and clear it past `GOLD_MASK_PERSIST_FRAMES`, then, if
the gold model detected a mask this frame, use and store the fresh
detection with age 0.  Masks are pixel lists of booleans;
`GOLD_INFERENCE_INTERVAL = 1` (line 37), so the detection branch is
attempted on every frame with a stone.
-/

/-- `GOLD_MASK_PERSIST_FRAMES = 2` (`inference_worker.py` line 36). -/
def GOLD_MASK_PERSIST_FRAMES : Nat := 2

/-- `np.any(mask > 0)`: the mask has at least one set pixel. -/
def maskNonempty (m : List Bool) : Bool := m.any id

/-- One frame of gold-mask persistence: given the stored mask and its age,
and the (clipped) detection of this frame if any, return the mask used by
this frame together with the new stored mask and age
(lines 195‑206 and 229‑251). -/
def goldMaskStep (last : Option (List Bool)) (age : Nat) (frameSize : Nat)
    (det : Option (List Bool)) :
    List Bool × Option (List Bool) × Nat :=
  let gm :=
    match last with
    | some m => if m.length = frameSize then m else List.replicate frameSize false
    | none => List.replicate frameSize false
  let age1 := age + 1
  let cleared := decide (GOLD_MASK_PERSIST_FRAMES < age1)
  let gm1 := if cleared then List.replicate frameSize false else gm
  let last1 := if cleared then none else last
  match det with
  | some d => (d, some d, 0)
  | none => (gm1, last1, age1)

/-- Iterate `goldMaskStep` over a detection schedule, collecting the mask
used by each frame. -/
def goldMaskTrace (frameSize : Nat) :
    Option (List Bool) → Nat → List (Option (List Bool)) → List (List Bool)
  | _, _, [] => []
  | last, age, det :: rest =>
      let r := goldMaskStep last age frameSize det
      r.1 :: goldMaskTrace frameSize r.2.1 r.2.2 rest

/-! ## Frame-buffer write targets (annotation never touches the input)

`InferenceWorker.process_frame` copies the input (`annotated =
frame.copy()`, line 118) and every subsequent OpenCV draw call targets the
copy; likewise `FastPurityService._process_frame` (line 280) and
`AWSPurityService._process_frame` (line 258).  Mutation is made explicit:
a canvas holds the caller's input array and the worker's copy, each draw
call is a function applied to one named buffer, and the per-function
target lists below transcribe, in program order, which buffer each draw
call of the source writes. -/

/-- Which array a draw call writes: the caller's input frame or the
worker's `annotated` copy. -/
inductive Buf
  | input
  | copy
  deriving DecidableEq

/-- The two buffers alive during a `_process_frame` call. -/
structure Canvas (α : Type) where
  inputFrame : α
  annotated : α

/-- Apply one draw call to its target buffer. -/
def applyDraw {α : Type} (c : Canvas α) : Buf × (α → α) → Canvas α
  | (Buf.input, f) => { c with inputFrame := f c.inputFrame }
  | (Buf.copy, f) => { c with annotated := f c.annotated }

/-- Run a sequence of draw calls. -/
def runDraws {α : Type} (c : Canvas α) (ops : List (Buf × (α → α))) :
    Canvas α :=
  ops.foldl applyDraw c

/-- Write targets of every buffer-mutating call in
`InferenceWorker.process_frame` and its helpers, in program order:
`cv2.rectangle(annotated, …)` (line 185), the gold overlay writes
`annotated[gold_mask > 0] = …` (254) and `annotated[_last_gold_mask > 0]`
(270), `cv2.circle`/`cv2.putText` in `_compute_rubbing_motion`
(325, 335 — called on `annotated`, line 273), the ACID-branch
`cv2.rectangle`/`cv2.putText` (382, 384, 412, 414), the
`_draw_done_overlay` writes (425‑426, 434 — `overlay` is itself a copy and
`cv2.addWeighted`'s destination is the `annotated` argument), and the
error-path `cv2.putText` (138).  The `crop = frame[...]` view (221) is
passed read-only to the detector. -/
def inferenceWorkerDrawTargets : List Buf :=
  [Buf.copy, Buf.copy, Buf.copy, Buf.copy, Buf.copy, Buf.copy, Buf.copy,
   Buf.copy, Buf.copy, Buf.copy, Buf.copy, Buf.copy]

/-- Write targets of every buffer-mutating call in
`FastPurityService._process_frame` and `_compute_rubbing`, in program
order: the stage banner `cv2.putText` (290), stone `cv2.rectangle` (307),
gold overlay `annotated[gold_mask > 0]` (334), the centroid `cv2.circle`
(421, called on `annotated`), the status `cv2.putText`s (347, 358, 360,
376, 390, 395, 397, 399, 401) and the acid `cv2.rectangle` (374). -/
def fastServiceDrawTargets : List Buf :=
  [Buf.copy, Buf.copy, Buf.copy, Buf.copy, Buf.copy, Buf.copy, Buf.copy,
   Buf.copy, Buf.copy, Buf.copy, Buf.copy, Buf.copy, Buf.copy, Buf.copy]

/-- Write targets for `AWSPurityService._process_frame` /
`_compute_rubbing` (`aws_purity_service.py` lines 270‑391): the same draw
calls as the fast service, all on `annotated` (`annotated = frame.copy()`,
line 258). -/
def awsServiceDrawTargets : List Buf :=
  [Buf.copy, Buf.copy, Buf.copy, Buf.copy, Buf.copy, Buf.copy, Buf.copy,
   Buf.copy, Buf.copy, Buf.copy, Buf.copy, Buf.copy, Buf.copy]

/-! ## Audio inference worker (`inference/audio_inference_worker.py`)

`AudioInferenceWorker.process_chunk` (lines 156‑221): circular write into
a fixed numpy buffer, window extraction once enough samples accumulated,
mean‑std normalisation, model call, and the sliding-hop decrement of the
accumulation counter.  The CNN is the opaque classifier: `classifyProbs`
returns the softmax pair `(probs[0], probs[1])`; `std` is the `np.std`
oracle.
-/

/-- The label returned by `process_chunk`: `"OK"`, `"NOT OK"` or the
`"WAIT"` placeholder for "no prediction yet". -/
inductive AudioLabel
  | ok
  | notOk
  | wait
  deriving DecidableEq

/-- `buf[start : start + len(xs)] = xs` (in-range slice assignment). -/
def setSlice (buf : List ℚ) (start : Nat) (xs : List ℚ) : List ℚ :=
  buf.take start ++ xs ++ buf.drop (start + xs.length)

/-- `np.mean`. -/
def ratMean (x : List ℚ) : ℚ := x.sum / x.length

/-- `np.mean((x - mean)^2)` — the square of `np.std(x)`. -/
def ratVariance (x : List ℚ) : ℚ :=
  ratMean (x.map (fun v => (v - ratMean x) ^ 2))

/-- Modelled from the spec: "normalize (subtract mean, divide by std+ε)",
with the standard deviation supplied as a value. -/
def specMeanStdNormalize (std : ℚ) (x : List ℚ) : List ℚ :=
  x.map (fun v => (v - ratMean x) / (std + 1/1000000))

/-- The worker's normalisation (`audio_inference_worker.py` lines
191‑194): `x = (x - mean) / (std + 1e-6)`, with `np.std` as an oracle. -/
def audioWorkerNormalize (std : List ℚ → ℚ) (x : List ℚ) : List ℚ :=
  let mean := ratMean x
  let s := std x
  x.map (fun v => (v - mean) / (s + 1/1000000))

/-- `np.argmax(probs)` / label selection (lines 205‑207): index 0 wins
ties, label `"OK"` iff the argmax is index 0. -/
def workerPredict (p0 p1 : ℚ) : AudioLabel × ℚ :=
  if p1 ≤ p0 then (AudioLabel.ok, p0) else (AudioLabel.notOk, p1)

/-- `AudioInferenceWorker` state (lines 96‑109): buffer of `buffer_size`
samples, write pointer, accumulated-sample counter and statistics. -/
structure AudioWorker where
  bufferSize : Nat
  winSamples : Nat
  hopSamples : Nat
  buffer : List ℚ
  writePtr : Nat
  samplesAccumulated : Int
  inferenceCount : Nat
  lastPrediction : AudioLabel
  lastConfidence : ℚ

/-- The circular write of `process_chunk` (lines 166‑176): write the chunk
at the write pointer, splitting it in two when it crosses the buffer
end. -/
def ringWrite (w : AudioWorker) (chunk : List ℚ) : AudioWorker :=
  let n := chunk.length
  if w.writePtr + n ≤ w.bufferSize then
    { w with buffer := setSlice w.buffer w.writePtr chunk,
             writePtr := w.writePtr + n }
  else
    let spaceLeft := w.bufferSize - w.writePtr
    { w with
        buffer := setSlice (setSlice w.buffer w.writePtr
            (chunk.take spaceLeft)) 0 (chunk.drop spaceLeft),
        writePtr := n - spaceLeft }

/-- The window extraction of `process_chunk` (lines 182‑189): the last
`win_samples` written samples, concatenating the buffer tail and head
when the window wraps. -/
def extractWindow (w : AudioWorker) : List ℚ :=
  if w.winSamples ≤ w.writePtr then
    (w.buffer.drop (w.writePtr - w.winSamples)).take w.winSamples
  else
    let part2 := w.buffer.take w.writePtr
    let part1 :=
      w.buffer.drop (w.bufferSize - (w.winSamples - w.writePtr))
    part1 ++ part2

/-- `AudioInferenceWorker.process_chunk` (lines 156‑221). -/
def processChunk (classifyProbs : List ℚ → ℚ × ℚ) (std : List ℚ → ℚ)
    (w : AudioWorker) (chunk : List ℚ) : (AudioLabel × ℚ) × AudioWorker :=
  if chunk.length = 0 then ((AudioLabel.wait, 0), w)
  else
    let w1 := ringWrite w chunk
    let w2 : AudioWorker :=
      { w1 with samplesAccumulated :=
          w1.samplesAccumulated + (chunk.length : Int) }
    if (w2.winSamples : Int) ≤ w2.samplesAccumulated then
      let xn := audioWorkerNormalize std (extractWindow w2)
      let pr := classifyProbs xn
      let lc := workerPredict pr.1 pr.2
      (lc,
        { w2 with inferenceCount := w2.inferenceCount + 1,
                  lastPrediction := lc.1, lastConfidence := lc.2,
                  samplesAccumulated :=
                    w2.samplesAccumulated - w2.hopSamples })
    else ((AudioLabel.wait, 0), w2)

/-! ## Audio processor service (`services/audio_service.py`)

`AudioProcessor.infer` (lines 175‑230): runs the classifier on whatever is
buffered, requiring only 0.5 seconds of audio, normalising by peak
amplitude (`_normalize_audio`, lines 137‑150), and leaving the buffer and
no hop counter behind.
-/

/-- `AudioProcessor._normalize_audio` (lines 137‑150): peak
normalisation — divide by the maximum absolute amplitude. -/
def serviceNormalizeAudio (x : List ℚ) : List ℚ :=
  let maxAbs :=
    if x.any (fun v => decide (v ≠ 0)) then (x.map qabs).foldr max 0 else 1
  if 0 < maxAbs then x.map (fun v => v / maxAbs) else x

/-- `AudioProcessor` state (lines 91‑104): the buffer is a deque with
`maxlen = int(sample_rate * window_size)`. -/
structure AudioProcessorState where
  sampleRate : Nat
  windowSize : ℚ
  confidenceThreshold : ℚ
  audioBuffer : List ℚ
  isModelLoaded : Bool

/-- The buffer capacity `int(sample_rate * window_size)` — the number of
samples in one full inference window (line 97). -/
def windowSampleCapacity (st : AudioProcessorState) : Nat :=
  (Int.floor ((st.sampleRate : ℚ) * st.windowSize)).toNat

/-- The result dict of `AudioProcessor.infer` (lines 217‑225), restricted
to the fields the video processor consults. -/
structure ServiceAudioOut where
  prediction : AudioPred
  confidence : ℚ
  okProb : ℚ
  nokProb : ℚ

/-- `AudioProcessor.infer` (lines 175‑230): `None` when the model is not
loaded or fewer than `sample_rate * 0.5` samples are buffered; otherwise
the classifier runs on the peak-normalised buffer (classifier failures,
caught by the `except`, are outside this model). -/
def audioInfer (classifyProbs : List ℚ → ℚ × ℚ)
    (st : AudioProcessorState) : Option ServiceAudioOut :=
  if !st.isModelLoaded then none
  else if (st.audioBuffer.length : ℚ) < (st.sampleRate : ℚ) * (1/2) then none
  else
    let xn := serviceNormalizeAudio st.audioBuffer
    let pr := classifyProbs xn
    if pr.2 ≤ pr.1 then some ⟨AudioPred.ok, pr.1, pr.1, pr.2⟩
    else some ⟨AudioPred.nok, pr.2, pr.1, pr.2⟩

end GoldLoan

namespace GoldLoan

/-! ## Theorems -/

theorem length_consecDiffs (l : List ℚ) :
    (consecDiffs l).length = l.length - 1 := by
  cases l with
  | nil => rfl
  | cons a t =>
    simp [consecDiffs, List.length_zip]

theorem computeRubbingMotion_iff (distances : List ℚ) :
    computeRubbingMotion distances = true ↔ rubbingMotionSpec distances := by
  unfold computeRubbingMotion rubbingMotionSpec
  by_cases h2 : 2 ≤ (meaningfulDiffs distances).length
  · have hd : 2 ≤ (consecDiffs distances).length :=
      le_trans h2 (List.length_filter_le _ _)
    have h3 : 3 ≤ distances.length := by
      rw [length_consecDiffs] at hd
      omega
    have hs : 2 ≤ ((meaningfulDiffs distances).map qsign).length := by
      simpa using h2
    simp [h3, h2, hs, MIN_FLUCTUATIONS]
  · constructor
    · intro h
      by_cases h3 : 3 ≤ distances.length
      · simp [h3, h2] at h
      · simp [h3] at h
    · intro h
      exact absurd h.1 h2

/-- C2: the per-frame rubbing-motion flag is true iff at least 2 consecutive
differences of the stored distances are meaningful (|diff| ≥ 2.5) and the
signs of the meaningful differences change at least `MIN_FLUCTUATIONS = 2`
times; the oscillating sequence `[10, 15, 9, 14, 8]` yields `true` and the
monotonic sequence `[10, 12, 14, 16]` yields `false`. -/
theorem rubbing_motion_fluctuation_characterisation :
    (∀ distances : List ℚ,
      computeRubbingMotion distances = true ↔ rubbingMotionSpec distances)
    ∧ computeRubbingMotion [10, 15, 9, 14, 8] = true
    ∧ computeRubbingMotion [10, 12, 14, 16] = false := by
  refine ⟨computeRubbingMotion_iff, ?_, ?_⟩ <;>
    norm_num [computeRubbingMotion, meaningfulDiffs, consecDiffs, qabs, qsign,
      signChanges, THRESHOLD_FLUCTUATION, MIN_FLUCTUATIONS, List.filter]

/-- C1: with the session in the RUBBING stage and no transition already
recorded, the frame queues the RUBBING→ACID switch iff all three gating
conditions hold on this evaluated frame (visual ok with
`visual_confirm_count ≥ 3`, rubbing motion, and the most recent audio
result being OK at confidence ≥ 0.7); otherwise no switch is queued, and
the current task itself is never changed by the update. -/
theorem rubbing_to_acid_gating (st : VideoSession) (dr : DetectionResult)
    (audioNew : Option AudioResult)
    (htask : st.currentTask = Task.rubbing)
    (hdet : st.rubbingDetected = false)
    (hpend : st.pendingTaskSwitch = none) :
    (updateSessionState st dr audioNew).pendingTaskSwitch
      = (if dr.visualOk && decide (3 ≤ dr.visualConfirmCount)
            && dr.rubbingMotion
            && audioRubbingOk (match audioNew with
                | some a => some a
                | none => st.lastAudioResult)
         then some Task.acid else none)
    ∧ (updateSessionState st dr audioNew).currentTask = Task.rubbing := by
  cases audioNew with
  | none =>
      cases hv : dr.visualOk <;> cases hm : dr.rubbingMotion <;>
        by_cases h3 : 3 ≤ dr.visualConfirmCount <;>
        cases hao : audioRubbingOk st.lastAudioResult <;>
        cases hda : dr.acidDetected <;>
        cases hgp : dr.goldPurity <;>
        simp [updateSessionState, htask, hdet, hpend, hv, hm, h3, hao,
          hda, hgp]
  | some a =>
      cases hv : dr.visualOk <;> cases hm : dr.rubbingMotion <;>
        by_cases h3 : 3 ≤ dr.visualConfirmCount <;>
        cases hao : audioRubbingOk (some a) <;>
        cases hda : dr.acidDetected <;>
        cases hgp : dr.goldPurity <;>
        simp [updateSessionState, htask, hdet, hpend, hv, hm, h3, hao,
          hda, hgp]

/-- Concrete instantiation of `rubbing_to_acid_gating`: a frame with
`visual_confirm_count = 3`, motion, visual ok, and audio OK at confidence
0.8 queues the switch to ACID. -/
theorem rubbing_to_acid_gating_witness :
    (updateSessionState
        ⟨Task.rubbing, false, false, none, none, 0, none, false⟩
        ⟨3, true, true, false, none⟩
        (some ⟨AudioPred.ok, 8/10⟩)).pendingTaskSwitch = some Task.acid
    ∧ (updateSessionState
        ⟨Task.rubbing, false, false, none, none, 0, none, false⟩
        ⟨3, true, true, false, none⟩
        (some ⟨AudioPred.ok, 8/10⟩)).currentTask = Task.rubbing := by
  obtain ⟨h1, h2⟩ :=
    rubbing_to_acid_gating
      ⟨Task.rubbing, false, false, none, none, 0, none, false⟩
      ⟨3, true, true, false, none⟩
      (some ⟨AudioPred.ok, 8/10⟩) rfl rfl rfl
  refine ⟨?_, h2⟩
  rw [h1]
  norm_num [audioRubbingOk, AUDIO_OK_THRESHOLD]

/-- C4 counterexample: in `FastPurityService._process_frame`, the
RUBBING→ACID transition triggered by a frame is applied to `current_task`
during that same frame's processing (line 352), not queued for the next
frame: after one processed frame whose rubbing check fires, the service's
task is already ACID. -/
theorem fast_transition_applied_mid_frame :
    (fastProcessFrame
        ⟨true, Task.rubbing, false, false, [10, 13, 10, 13], true, true⟩
        true true 10 []).1.currentTask = Task.acid := by
  have hd : dequeAppend FAST_WINDOW_SIZE [10, 13, 10, 13] 10
      = [10, 13, 10, 13, 10] := by
    simp [dequeAppend, FAST_WINDOW_SIZE]
  have h1 : consecDiffs [10, 13, 10, 13, 10] = [3, -3, 3, -3] := by
    norm_num [consecDiffs]
  have h2 : ([3, -3, 3, -3] : List ℚ).map
      (fun d => decide (FAST_FLUCTUATION_THRESHOLD ≤ qabs d))
      = [true, true, true, true] := by
    norm_num [qabs, FAST_FLUCTUATION_THRESHOLD]
  have h3 : ([3, -3, 3, -3] : List ℚ).map qsign = [1, -1, 1, -1] := by
    norm_num [qsign]
  have h4 : fastComputeRubbingFromDistances [10, 13, 10, 13, 10] = true := by
    rw [fastComputeRubbingFromDistances]
    rw [if_pos (by norm_num)]
    simp only [h1, h2, h3]
    decide
  have h5 : fastComputeRubbing true true 10 [10, 13, 10, 13]
      = (true, [10, 13, 10, 13, 10]) := by
    rw [fastComputeRubbing]
    simp only [Bool.not_true, Bool.or_self, Bool.false_eq_true, if_false]
    rw [hd, h4]
  simp [fastProcessFrame, h5]

/-- C4 (amended): in the WebRTC video processor the claim holds —
`_update_session_state` never changes `current_task` on the frame that
triggered a transition (it only queues it), and the queued switch is
applied at the start of the next `recv`; in the fast purity service the
switch is applied within `_process_frame` itself, but the detector
invocation that produced the triggering report still runs under the
pre-transition stage, because the stage branch is selected before any
assignment (an ACID-stage report cannot influence a RUBBING frame). -/
theorem transition_queueing_amended :
    (∀ (st : VideoSession) (dr : DetectionResult) (a : Option AudioResult),
        (updateSessionState st dr a).currentTask = st.currentTask)
    ∧ (∀ (st : VideoSession) (t : Task), st.pendingTaskSwitch = some t →
        (applyPending st).currentTask = t
          ∧ (applyPending st).pendingTaskSwitch = none)
    ∧ (∀ (st : FastService) (sf mz : Bool) (d : ℚ) (ar ar2 : List ℚ),
        st.currentTask = Task.rubbing →
        fastProcessFrame st sf mz d ar = fastProcessFrame st sf mz d ar2) := by
  refine ⟨?_, ?_, ?_⟩
  · intro st dr a
    cases a <;> cases hgp : dr.goldPurity <;>
      simp only [updateSessionState, hgp,
        apply_ite (VideoSession.currentTask), ite_self]
  · intro st t h
    simp [applyPending, h]
  · intro st sf mz d ar ar2 h
    simp [fastProcessFrame, h]

/-- Concrete instantiation of `transition_queueing_amended`: applying a
queued switch moves the task and clears the queue. -/
theorem transition_queueing_amended_witness :
    (applyPending
        ⟨Task.rubbing, true, false, none, some Task.acid, 0, none,
          false⟩).currentTask = Task.acid
    ∧ (applyPending
        ⟨Task.rubbing, true, false, none, some Task.acid, 0, none,
          false⟩).pendingTaskSwitch = none :=
  transition_queueing_amended.2.1
    ⟨Task.rubbing, true, false, none, some Task.acid, 0, none, false⟩
    Task.acid rfl

/-- C3 counterexample: in `FastPurityService._process_frame` the
ACID→DONE transition fires on a detection of confidence 0.7 — above the
service's `conf=0.6` model threshold and its `conf > 0.4` check, but
below the 0.8 the claim states. -/
theorem acid_threshold_counterexample :
    (fastProcessFrame ⟨true, Task.acid, true, false, [], true, true⟩
        false false 0 [7/10]).1.currentTask = Task.done
    ∧ (7 : ℚ)/10 < 8/10 := by
  constructor
  · norm_num [fastProcessFrame, List.filter, List.any]
  · norm_num

/-- C3 (amended): in the `InferenceWorker` path the ACID→DONE transition
fires iff the acid model (invoked at confidence threshold 0.8) returns at
least one detection, i.e. iff some raw candidate scores above 0.8; in the
fast/AWS purity-service path the threshold is 0.6 (model call at
`conf=0.6` followed by a `conf > 0.4` check).  In every path DONE is
terminal: a done-stage frame changes neither the stage nor the
rubbing/acid flags. -/
theorem acid_transition_thresholds :
    (∀ (st : InfWorker) (acidRaw : List ℚ),
        st.stage = InfStage.acid → st.acidDetected = false →
        ((infProcessAcid st acidRaw).stage = InfStage.completed
          ↔ ∃ c ∈ acidRaw, (8 : ℚ)/10 < c))
    ∧ (∀ (st : FastService) (sf mz : Bool) (d : ℚ) (acidRaw : List ℚ),
        st.currentTask = Task.acid →
        ((fastProcessFrame st sf mz d acidRaw).1.currentTask = Task.done
          ↔ ∃ c ∈ acidRaw, (6 : ℚ)/10 < c))
    ∧ (∀ (st : FastService) (sf mz : Bool) (d : ℚ) (ar : List ℚ),
        st.currentTask = Task.done →
        (fastProcessFrame st sf mz d ar).1 = st)
    ∧ (∀ (st : InfWorker) (ar : List ℚ) (rubStep : InfWorker → InfWorker),
        infProcessFrameDispatch st Task.done ar rubStep
          = { st with stage := InfStage.pleted }) := by
  refine ⟨?_, ?_, ?_, ?_⟩
  · intro st raw hst hdet
    unfold infProcessAcid
    by_cases hex : ∃ c ∈ raw, (8 : ℚ)/10 < c
    · have hne : predictFilter (8/10) raw ≠ [] := by
        obtain ⟨c, hc, h8⟩ := hex
        intro hnil
        have hmem : c ∈ predictFilter (8/10) raw :=
          List.mem_filter.mpr ⟨hc, by simpa using h8⟩
        rw [hnil] at hmem
        exact absurd hmem (List.not_mem_nil c)
      have hE : (predictFilter (8/10) raw).isEmpty = false := by
        cases hfe : predictFilter (8/10) raw with
        | nil => exact absurd hfe hne
        | cons a t => rfl
      simp [hE, hdet, hex]
    · have hnil : predictFilter (8/10) raw = [] := by
        rw [predictFilter, List.filter_eq_nil_iff]
        intro a ha
        simp only [decide_eq_true_eq]
        intro h8
        exact hex ⟨a, ha, h8⟩
      have hE : (predictFilter (8/10) raw).isEmpty = true := by
        rw [hnil]
        rfl
      simp [hE, hst, hex]
  · intro st sf mz d raw h
    by_cases hA : (raw.filter (fun c => decide ((6 : ℚ)/10 < c))).any
        (fun c => decide ((4 : ℚ)/10 < c)) = true
    · have hex : ∃ c ∈ raw, (6 : ℚ)/10 < c := by
        simp only [List.any_eq_true, List.mem_filter] at hA
        obtain ⟨c, ⟨hc, h6⟩, _⟩ := hA
        exact ⟨c, hc, by simpa using h6⟩
      simp [fastProcessFrame, h, hA, hex]
    · have hex : ¬ ∃ c ∈ raw, (6 : ℚ)/10 < c := by
        rintro ⟨c, hc, h6⟩
        apply hA
        simp only [List.any_eq_true, List.mem_filter]
        exact ⟨c, ⟨hc, by simpa using h6⟩, by
          simp only [decide_eq_true_eq]
          linarith⟩
      simp [fastProcessFrame, h, hA, hex]
  · intro st sf mz d ar h
    simp [fastProcessFrame, h]
  · intro st ar rubStep
    simp [infProcessFrameDispatch, infSyncStage, infResetForNewItem]

/-- Concrete instantiation of `acid_transition_thresholds`: a 0.9
detection completes the worker's acid stage and the fast service's, and a
done-stage frame is a no-op. -/
theorem acid_transition_thresholds_witness :
    (infProcessAcid ⟨InfStage.acid, true, false, 0, none, 0⟩ [9/10]).stage
        = InfStage.completed
    ∧ (fastProcessFrame ⟨true, Task.acid, true, false, [], true, true⟩
          false false 0 [9/10]).1.currentTask = Task.done
    ∧ (fastProcessFrame ⟨true, Task.done, true, true, [], true, true⟩
          false false 0 [9/10]).1
        = ⟨true, Task.done, true, true, [], true, true⟩
    ∧ infProcessFrameDispatch ⟨InfStage.completed, true, true, 0, none, 0⟩
          Task.done [] id
        = ⟨InfStage.pleted, true, true, 0, none, 0⟩ := by
  refine ⟨?_, ?_, ?_, ?_⟩
  · exact (acid_transition_thresholds.1 _ _ rfl rfl).mpr
      ⟨9/10, by simp, by norm_num⟩
  · exact (acid_transition_thresholds.2.1 _ _ _ _ _ rfl).mpr
      ⟨9/10, by simp, by norm_num⟩
  · exact acid_transition_thresholds.2.2.1 _ _ _ _ _ rfl
  · exact acid_transition_thresholds.2.2.2 _ _ _

theorem maskNonempty_replicate_false (n : Nat) :
    maskNonempty (List.replicate n false) = false := by
  induction n with
  | zero => rfl
  | succ k ih => simpa [List.replicate_succ, maskNonempty] using ih

/-- C8: a gold mask detected at frame 0, with no further detections, is
the mask used by frames 1 and 2 (`mask_ttl = 2`) and is cleared to the
empty mask at frame 3 (`mask_ttl + 1`). -/
theorem gold_mask_persistence (n : Nat) (m : List Bool)
    (_hne : maskNonempty m = true) (hlen : m.length = n) :
    goldMaskTrace n none 0 [some m, none, none, none]
      = [m, m, m, List.replicate n false]
    ∧ maskNonempty (List.replicate n false) = false := by
  refine ⟨?_, maskNonempty_replicate_false n⟩
  simp [goldMaskTrace, goldMaskStep, GOLD_MASK_PERSIST_FRAMES, hlen]

/-- Concrete instantiation of `gold_mask_persistence` with a one-pixel
mask. -/
theorem gold_mask_persistence_witness :
    goldMaskTrace 1 none 0 [some [true], none, none, none]
      = [[true], [true], [true], List.replicate 1 false]
    ∧ maskNonempty (List.replicate 1 false) = false :=
  gold_mask_persistence 1 [true] rfl rfl

theorem runDraws_copy_only {α : Type} (c : Canvas α)
    (ops : List (Buf × (α → α))) (h : ∀ p ∈ ops, p.1 = Buf.copy) :
    (runDraws c ops).inputFrame = c.inputFrame := by
  induction ops generalizing c with
  | nil => rfl
  | cons p rest ih =>
      obtain ⟨b, f⟩ := p
      have hp : b = Buf.copy := h (b, f) (List.mem_cons_self _ _)
      subst hp
      have step : runDraws c ((Buf.copy, f) :: rest)
          = runDraws { c with annotated := f c.annotated } rest := rfl
      rw [step]
      exact ih _ (fun q hq => h q (List.mem_cons_of_mem _ hq))

/-- C10: every buffer-mutating call of per-frame processing targets the
`annotated` copy (`annotated = frame.copy()`), never the caller's input
frame: running the transcribed draw sequences of
`InferenceWorker.process_frame`, `FastPurityService._process_frame` and
`AWSPurityService._process_frame`, with arbitrary draw functions, leaves
the input frame exactly as it was. -/
theorem process_frame_input_immutable :
    (∀ (α : Type) (frame annotated0 : α) (fs : List (α → α)),
        (runDraws ⟨frame, annotated0⟩
          (inferenceWorkerDrawTargets.zip fs)).inputFrame = frame)
    ∧ (∀ (α : Type) (frame annotated0 : α) (fs : List (α → α)),
        (runDraws ⟨frame, annotated0⟩
          (fastServiceDrawTargets.zip fs)).inputFrame = frame)
    ∧ (∀ (α : Type) (frame annotated0 : α) (fs : List (α → α)),
        (runDraws ⟨frame, annotated0⟩
          (awsServiceDrawTargets.zip fs)).inputFrame = frame) := by
  refine ⟨?_, ?_, ?_⟩ <;>
    · intro α frame a0 fs
      apply runDraws_copy_only
      intro p hp
      obtain ⟨hb, _⟩ := List.of_mem_zip hp
      simpa [inferenceWorkerDrawTargets, fastServiceDrawTargets,
        awsServiceDrawTargets] using hb

theorem workerPredict_ne_wait (p0 p1 : ℚ) :
    (workerPredict p0 p1).1 ≠ AudioLabel.wait := by
  unfold workerPredict
  split <;> simp

theorem ringWrite_writePtr_le (w : AudioWorker) (c : List ℚ)
    (hc : c.length ≤ w.bufferSize) :
    (ringWrite w c).writePtr ≤ w.bufferSize := by
  unfold ringWrite
  by_cases hfit : w.writePtr + c.length ≤ w.bufferSize
  · simpa [hfit] using hfit
  · simp only [hfit, if_false]
    omega

theorem ringWrite_stats (w : AudioWorker) (c : List ℚ) :
    (ringWrite w c).bufferSize = w.bufferSize
    ∧ (ringWrite w c).samplesAccumulated = w.samplesAccumulated
    ∧ (ringWrite w c).winSamples = w.winSamples
    ∧ (ringWrite w c).hopSamples = w.hopSamples := by
  simp only [ringWrite]
  split <;> exact ⟨rfl, rfl, rfl, rfl⟩

theorem processChunk_bufferSize (cp : List ℚ → ℚ × ℚ) (std : List ℚ → ℚ)
    (w : AudioWorker) (c : List ℚ) :
    (processChunk cp std w c).2.bufferSize = w.bufferSize := by
  simp only [processChunk]
  split
  · rfl
  · split
    · exact (ringWrite_stats w c).1
    · exact (ringWrite_stats w c).1

theorem processChunk_writePtr_le (cp : List ℚ → ℚ × ℚ) (std : List ℚ → ℚ)
    (w : AudioWorker) (c : List ℚ)
    (hc : c.length ≤ w.bufferSize) (hw : w.writePtr ≤ w.bufferSize) :
    (processChunk cp std w c).2.writePtr ≤ w.bufferSize := by
  simp only [processChunk]
  split
  · exact hw
  · split
    · exact ringWrite_writePtr_le w c hc
    · exact ringWrite_writePtr_le w c hc

/-- C7 counterexample: a single write of a chunk whose length equals the
buffer capacity (permitted by the claim's precondition) leaves the write
cursor at `capacity`, outside the claimed half-open interval
`[0, capacity)`. -/
theorem write_cursor_reaches_capacity :
    (processChunk (fun _ => (1, 0)) (fun _ => 1)
        ⟨4, 100, 1, [0, 0, 0, 0], 0, 0, 0, AudioLabel.wait, 0⟩
        [1, 2, 3, 4]).2.writePtr = 4
    ∧ ¬ ((processChunk (fun _ => (1, 0)) (fun _ => 1)
        ⟨4, 100, 1, [0, 0, 0, 0], 0, 0, 0, AudioLabel.wait, 0⟩
        [1, 2, 3, 4]).2.writePtr < 4)
    ∧ ([(1 : ℚ), 2, 3, 4].length ≤ 4) := by
  have h : (processChunk (fun _ => (1, 0)) (fun _ => 1)
      ⟨4, 100, 1, [0, 0, 0, 0], 0, 0, 0, AudioLabel.wait, 0⟩
      [1, 2, 3, 4]).2.writePtr = 4 := by
    unfold processChunk ringWrite
    norm_num
  exact ⟨h, by rw [h]; omega, by simp⟩

/-- C7 (amended): for any sequence of writes of chunks no longer than the
buffer capacity, from any state whose cursor is within the buffer, the
write cursor stays in the closed interval `[0, capacity]` after every
write (it equals `capacity` exactly when a write ends flush with the
buffer end; the next write wraps it back below).  Stated as: the fold of
`process_chunk` over any such chunk sequence keeps the cursor ≤ capacity
— every intermediate cursor is the endpoint of such a fold over a
prefix. -/
theorem write_cursor_bounded (cp : List ℚ → ℚ × ℚ) (std : List ℚ → ℚ)
    (chunks : List (List ℚ)) (w : AudioWorker)
    (hw : w.writePtr ≤ w.bufferSize)
    (hc : ∀ c ∈ chunks, c.length ≤ w.bufferSize) :
    (chunks.foldl (fun st c => (processChunk cp std st c).2) w).writePtr
      ≤ w.bufferSize := by
  induction chunks generalizing w with
  | nil => simpa using hw
  | cons c rest ih =>
      simp only [List.foldl_cons]
      have hcc : c.length ≤ w.bufferSize := hc c (List.mem_cons_self _ _)
      have hbs := processChunk_bufferSize cp std w c
      have hptr := processChunk_writePtr_le cp std w c hcc hw
      have := ih ((processChunk cp std w c).2)
        (by rw [hbs]; exact hptr)
        (by intro d hd; rw [hbs]; exact hc d (List.mem_cons_of_mem _ hd))
      rwa [hbs] at this

/-- Concrete instantiation of `write_cursor_bounded`: two writes, the
second wrapping around the buffer end, keep the cursor within the
4-sample buffer. -/
theorem write_cursor_bounded_witness :
    ([[1, 2], [3, 4, 5]].foldl
        (fun st c => (processChunk (fun _ => (1, 0)) (fun _ => 1) st c).2)
        ⟨4, 100, 1, [0, 0, 0, 0], 0, 0, 0, AudioLabel.wait, 0⟩).writePtr
      ≤ 4 :=
  write_cursor_bounded (fun _ => (1, 0)) (fun _ => 1) [[1, 2], [3, 4, 5]]
    ⟨4, 100, 1, [0, 0, 0, 0], 0, 0, 0, AudioLabel.wait, 0⟩
    (by simp)
    (by
      intro c hcm
      simp only [List.mem_cons, List.not_mem_nil, or_false] at hcm
      rcases hcm with rfl | rfl <;> simp)

/-- C5 counterexample: `AudioProcessor.infer` (one of the two audio
inference steps the claim covers) returns a prediction as soon as 0.5
seconds of audio are buffered — far fewer than the window-size number of
samples — and decrements no counter (it has none).  Here: sample rate 4,
window 2.0 s, so the window holds 8 samples, yet a 2-sample buffer
already yields a prediction. -/
theorem service_infer_below_window_counterexample :
    (audioInfer (fun _ => (1, 0)) ⟨4, 2, 3/4, [1, 1], true⟩).isSome = true
    ∧ [(1 : ℚ), 1].length < windowSampleCapacity ⟨4, 2, 3/4, [1, 1], true⟩ := by
  constructor
  · norm_num [audioInfer, serviceNormalizeAudio, qabs]
  · norm_num [windowSampleCapacity]

/-- C5 (amended): for `AudioInferenceWorker.process_chunk` with a
nonempty chunk, the claim holds exactly: no prediction (the `"WAIT"`
placeholder) is returned iff the accumulated-sample counter (after the
write) is below the window size, and on a prediction the counter is
decremented by exactly the hop size.  (`AudioProcessor.infer` follows a
different scheme — see the counterexample.) -/
theorem audio_worker_infer_iff (cp : List ℚ → ℚ × ℚ) (std : List ℚ → ℚ)
    (w : AudioWorker) (chunk : List ℚ) (hne : chunk ≠ []) :
    ((processChunk cp std w chunk).1.1 = AudioLabel.wait
      ↔ w.samplesAccumulated + (chunk.length : Int) < (w.winSamples : Int))
    ∧ ((w.winSamples : Int) ≤ w.samplesAccumulated + (chunk.length : Int) →
        (processChunk cp std w chunk).2.samplesAccumulated
          = w.samplesAccumulated + (chunk.length : Int)
            - (w.hopSamples : Int)) := by
  have hn : ¬ chunk.length = 0 := by
    simpa [List.length_eq_zero] using hne
  obtain ⟨hbs, hacc, hwin, hhop⟩ := ringWrite_stats w chunk
  unfold processChunk
  rw [if_neg hn]
  by_cases hinf : ((ringWrite w chunk).winSamples : Int)
      ≤ (ringWrite w chunk).samplesAccumulated + (chunk.length : Int)
  · rw [if_pos (by simpa using hinf)]
    rw [hacc, hwin] at hinf
    refine ⟨⟨fun hlab => absurd hlab (workerPredict_ne_wait _ _),
      fun hlt => absurd hinf (by omega)⟩, fun _ => ?_⟩
    simp [hacc, hhop]
  · rw [if_neg (by simpa using hinf)]
    rw [hacc, hwin] at hinf
    exact ⟨⟨fun _ => by omega, fun _ => rfl⟩, fun hle => absurd hle hinf⟩

/-- Concrete instantiation of `audio_worker_infer_iff`: window 4, hop 1;
a 4-sample chunk triggers a prediction and leaves the counter at
`4 - 1 = 3`. -/
theorem audio_worker_infer_iff_witness :
    (processChunk (fun _ => (1, 0)) (fun _ => 1)
        ⟨10, 4, 1, [0, 0, 0, 0, 0, 0, 0, 0, 0, 0], 0, 0, 0,
          AudioLabel.wait, 0⟩
        [1, 2, 3, 4]).1.1 ≠ AudioLabel.wait
    ∧ (processChunk (fun _ => (1, 0)) (fun _ => 1)
        ⟨10, 4, 1, [0, 0, 0, 0, 0, 0, 0, 0, 0, 0], 0, 0, 0,
          AudioLabel.wait, 0⟩
        [1, 2, 3, 4]).2.samplesAccumulated = 3 := by
  have h := audio_worker_infer_iff (fun _ => (1, 0)) (fun _ => 1)
      ⟨10, 4, 1, [0, 0, 0, 0, 0, 0, 0, 0, 0, 0], 0, 0, 0,
        AudioLabel.wait, 0⟩
      [1, 2, 3, 4] (by simp)
  constructor
  · intro hw
    have hlt := h.1.mp hw
    simp at hlt
  · have h2 := h.2 (by simp)
    rw [h2]
    simp

/-- C6 counterexample: `AudioProcessor.infer` hands the classifier the
peak-normalised buffer, not the mean‑std-normalised one.  On the buffer
`[1, -1]` (variance 1, so `np.std` is exactly 1) the classifier observes
head 1, whereas the mean‑std window has head `1/(1 + 1e-6) ≠ 1`. -/
theorem service_peak_normalization_counterexample :
    (audioInfer (fun x => (x.headD 0, 0)) ⟨4, 2, 3/4, [1, -1], true⟩)
      = some ⟨AudioPred.ok, 1, 1, 0⟩
    ∧ ratVariance [1, -1] = 1
    ∧ (specMeanStdNormalize 1 [1, -1]).headD 0 ≠ 1 := by
  refine ⟨?_, ?_, ?_⟩
  · norm_num [audioInfer, serviceNormalizeAudio, qabs]
  · norm_num [ratVariance, ratMean]
  · norm_num [specMeanStdNormalize, ratMean]

/-- C6 (amended): the `AudioInferenceWorker` path normalises each window
by subtracting the mean and dividing by the standard deviation plus
`1e-6`, exactly as the spec words it; the `AudioProcessor` service path
instead divides by the peak absolute amplitude, and the two disagree
(e.g. on `[1, -1]`, whose standard deviation is exactly 1). -/
theorem audio_normalization_paths :
    (∀ (std : List ℚ → ℚ) (x : List ℚ),
        audioWorkerNormalize std x = specMeanStdNormalize (std x) x)
    ∧ ratVariance [1, -1] = 1
    ∧ serviceNormalizeAudio [1, -1] ≠ specMeanStdNormalize 1 [1, -1] := by
  refine ⟨fun std x => rfl, ?_, ?_⟩
  · norm_num [ratVariance, ratMean]
  · norm_num [serviceNormalizeAudio, specMeanStdNormalize, ratMean, qabs]

/-- C9: if the camera fails to open, `start()` reports failure and leaves
the whole pipeline state unchanged — running flag still false, no threads
spawned, stage and detection state untouched. -/
theorem start_camera_failure_no_side_effects (st : FastService)
    (hrun : st.isRunning = false) :
    (fastStart st false).1 = false ∧ (fastStart st false).2 = st := by
  simp [fastStart, hrun]

/-- Concrete instantiation of `start_camera_failure_no_side_effects`. -/
theorem start_camera_failure_no_side_effects_witness :
    (fastStart ⟨false, Task.rubbing, false, false, [], false, false⟩
        false).1 = false
    ∧ (fastStart ⟨false, Task.rubbing, false, false, [], false, false⟩
        false).2 = ⟨false, Task.rubbing, false, false, [], false, false⟩ :=
  start_camera_failure_no_side_effects
    ⟨false, Task.rubbing, false, false, [], false, false⟩ rfl

end GoldLoan
